import Mathlib

/-!
Verification of the video-grid planning layer of this repository.

The Python sources are shallowly embedded:
* machine integers become `ℤ` (Python ints are unbounded, so no modular wrap);
* Python float arithmetic in the layout search (`cols / rows`, `abs`, `<`)
  is modeled by exact rational arithmetic over `ℚ`;
* Python `//` (floor division) becomes `Int.fdiv`; a division whose divisor
  may be zero (a `ZeroDivisionError` site) is wrapped in `Option`;
* the process-wide `random` module state is threaded explicitly as an `Rng`
  value (an abstract deterministic stream of draws plus a cursor);
* code paths that raise (`ZeroDivisionError`, `IndexError` from
  `random.choices` on an empty population, indexing an empty list) return
  `none`.
-/

/-- Python floor division `a // b`; `none` models `ZeroDivisionError`. -/
def pyFloorDiv (a b : ℤ) : Option ℤ :=
  if b = 0 then none else some (Int.fdiv a b)

/-- Python slice `l[:k]` with an integer bound `k` (negative bounds count
from the end, clamped at zero). -/
def pySlice {α : Type} (k : ℤ) (l : List α) : List α :=
  if 0 ≤ k then l.take k.toNat else l.take ((l.length : ℤ) + k).toNat

/-- Result record of `get_video_crop_params` in
`video_grid_generator_v2_advanced.py` (the probe-derived `fps` field is
external data and is not part of the planning geometry). -/
structure CropParams where
  original_width : ℤ
  original_height : ℤ
  square_size : ℤ
  crop_x : ℤ
  crop_y : ℤ
deriving DecidableEq, Repr

/-- Embedding of `get_video_crop_params` (lines 63-95 of
`video_grid_generator_v2_advanced.py`), restricted to its pure geometry:
the probed stream `width`/`height` are taken as arguments. -/
def get_video_crop_params (width height : ℤ) (crop_mode : String) : CropParams :=
  let square_size := min width height
  if crop_mode = "center" then
    ⟨width, height, square_size,
      Int.fdiv (width - square_size) 2, Int.fdiv (height - square_size) 2⟩
  else if crop_mode = "top" then
    ⟨width, height, square_size, Int.fdiv (width - square_size) 2, 0⟩
  else if crop_mode = "bottom" then
    ⟨width, height, square_size,
      Int.fdiv (width - square_size) 2, height - square_size⟩
  else
    ⟨width, height, square_size,
      Int.fdiv (width - square_size) 2, Int.fdiv (height - square_size) 2⟩

/-- State of the running minimum in the layout search: `none` models the
initial `float('inf')`. -/
def ltInf (d : ℚ) (best : Option ℚ) : Bool :=
  match best with
  | none => true
  | some b => decide (d < b)

/-- The `(rows, cols, cell_width, cell_height)` tuple returned by
`calculate_optimal_grid`. -/
structure GridLayout where
  rows : ℤ
  cols : ℤ
  cell_width : ℤ
  cell_height : ℤ
deriving DecidableEq, Repr

/-- Python `math.ceil(num_videos / rows)` with exact rational division. -/
def gridCols (num rows : ℤ) : ℤ := ⌈(num : ℚ) / (rows : ℚ)⌉

/-- The value `abs(cols / rows - target_width / target_height)` for the candidate at
`rows`, with float arithmetic modeled exactly over `ℚ`. -/
def gridRatioDiff (num tw th rows : ℤ) : ℚ :=
  |((gridCols num rows : ℚ) / (rows : ℚ)) - (tw : ℚ) / (th : ℚ)|

/-- The candidate layout examined at a given `rows` value. -/
def gridLayoutAt (num tw th rows : ℤ) : GridLayout :=
  ⟨rows, gridCols num rows, Int.fdiv tw (gridCols num rows), Int.fdiv th rows⟩

/-- One iteration of the search loop in `calculate_optimal_grid`
(lines 48-59 of `video_grid_generator_v2_advanced.py`): compute
`cols = ceil(num/rows)`, keep the candidate when its ratio difference is
strictly below the best so far. `none` models the `ZeroDivisionError`
raised by `target_width // cols` when `cols = 0`. -/
def gridStep (num tw th : ℤ) (st : Option ℚ × Option GridLayout) (rows : ℤ) :
    Option (Option ℚ × Option GridLayout) :=
  let cols := gridCols num rows
  if num ≤ rows * cols then
    let ratio_diff := |((cols : ℚ) / (rows : ℚ)) - (tw : ℚ) / (th : ℚ)|
    match pyFloorDiv tw cols, pyFloorDiv th rows with
    | some cw, some ch =>
      if ltInf ratio_diff st.1
      then some (some ratio_diff, some ⟨rows, cols, cw, ch⟩)
      else some st
    | _, _ => none
  else some st

/-- Embedding of `calculate_optimal_grid` (lines 42-61 of
`video_grid_generator_v2_advanced.py`; identical in
`video_grid_generator.py` and `video_grid_generator_advanced.py`).
The outer `Option` models an uncaught exception (`ZeroDivisionError`);
the inner `Option` is Python's `best_layout = None` initial value.
`range(1, 20)` iterates `rows = 1, ..., 19`. -/
def calculate_optimal_grid (num tw th : ℤ) : Option (Option GridLayout) :=
  if th = 0 then none
  else
    ((List.range' 1 19).foldlM
      (fun (st : Option ℚ × Option GridLayout) (r : ℕ) => gridStep num tw th st (r : ℤ))
      ((none : Option ℚ), (none : Option GridLayout))).map Prod.snd

/-- Loop body with the error cases stripped; equal to `gridStep` whenever
`num ≥ 1` and `rows ≥ 1` (then `cols ≥ 1`, so no division error and the
defensive `rows * cols >= num_videos` check always passes). -/
def pureGridStep (num tw th : ℤ) (st : Option ℚ × Option GridLayout) (rows : ℤ) :
    Option ℚ × Option GridLayout :=
  if ltInf (gridRatioDiff num tw th rows) st.1
  then (some (gridRatioDiff num tw th rows), some (gridLayoutAt num tw th rows))
  else st

/-- Abstract deterministic random source: a pre-drawn stream of naturals
plus a cursor. This is the explicit form of the process-wide `random`
module state; fixing the seed fixes `stream`, and each primitive draw
consumes one stream element. -/
structure Rng where
  stream : ℕ → ℕ
  idx : ℕ

/-- One bounded draw (`randbelow`-style): a value in `[0, bound)` for
positive `bound`, advancing the cursor. -/
def rngNext (g : Rng) (bound : ℕ) : ℕ × Rng :=
  (g.stream g.idx % bound, ⟨g.stream, g.idx + 1⟩)

/-- Python `random.choices(population, k=k)`: `k` independent draws with
replacement; `none` models the `IndexError` raised on an empty population
when `k > 0`. -/
def pyChoices {α : Type} (pop : List α) : ℕ → Rng → Option (List α × Rng)
  | 0, g => some ([], g)
  | k + 1, g =>
    if hp : 0 < pop.length then
      let x := pop.get ⟨(rngNext g pop.length).1, Nat.mod_lt _ hp⟩
      match pyChoices pop k (rngNext g pop.length).2 with
      | some (l, g') => some (x :: l, g')
      | none => none
    else none

/-- Swap two positions of a list (no-op when an index is out of range). -/
def listSwap {α : Type} (l : List α) (i j : ℕ) : List α :=
  match l[i]?, l[j]? with
  | some a, some b => (l.set i b).set j a
  | _, _ => l

/-- The Fisher-Yates loop of `random.shuffle`:
`for i in reversed(range(1, len(x))): j = randbelow(i+1); swap x[i], x[j]`,
one draw per position, from the last position down to 1. -/
def fyStep {α : Type} : ℕ → List α × Rng → List α × Rng
  | 0, s => s
  | i + 1, (l, g) =>
    let d := rngNext g (i + 2)
    fyStep i (listSwap l (i + 1) d.1, d.2)

/-- Python `random.shuffle(l)` with the state threaded explicitly. -/
def pyShuffle {α : Type} (l : List α) (g : Rng) : List α × Rng :=
  fyStep (l.length - 1) (l, g)

/-- A clip reference: `(video path, task name)` as built at line 106. -/
abbrev ClipEntry := String × String

/-- Flattening loop at lines 103-106 of
`video_grid_generator_v2_advanced.py`: all `(video, task_name)` pairs in
group iteration order (Python dicts iterate in insertion order, so the
groups mapping is an association list). -/
def flattenGroups (groups : List (String × List String)) : List ClipEntry :=
  groups.flatMap (fun grp => grp.2.map (fun v => (v, grp.1)))

/-- Lines 109-110: the `max_videos` cap. `0` is falsy in Python, so a zero
cap is ignored; the slice semantics cover negative caps. -/
def truncatedClips (groups : List (String × List String))
    (max_videos : Option ℤ) : List ClipEntry :=
  let all_videos := flattenGroups groups
  match max_videos with
  | some m =>
    if m ≠ 0 ∧ m < (all_videos.length : ℤ) then pySlice m all_videos
    else all_videos
  | none => all_videos

/-- Lines 116-120: when the (capped) pool is smaller than the grid, draw
the shortfall with `random.choices` and append; otherwise the pool passes
through untouched and no randomness is consumed. -/
def fillToSlots (all_videos : List ClipEntry) (total_slots : ℤ) (g : Rng) :
    Option (List ClipEntry × Rng) :=
  if (all_videos.length : ℤ) < total_slots then
    match pyChoices all_videos (total_slots - (all_videos.length : ℤ)).toNat g with
    | some (extra, g') => some (all_videos ++ extra, g')
    | none => none
  else some (all_videos, g)

/-- Embedding of `create_balanced_video_list` (lines 97-139 of
`video_grid_generator_v2_advanced.py`): flatten and cap the grouped clips,
fill the shortfall, optionally `random.shuffle`, then keep the first
`total_slots` entries. The process-wide `random` state is the explicit
argument `g`; `none` models the uncaught `IndexError` when the clip pool
is empty but slots remain to fill. The returned plan is the list of video
paths (task tags are dropped at line 139). -/
def create_balanced_video_list (groups : List (String × List String))
    (rows cols : ℤ) (max_videos : Option ℤ) (shuffle : Bool) (g : Rng) :
    Option (List String × Rng) :=
  let total_slots := rows * cols
  match fillToSlots (truncatedClips groups max_videos) total_slots g with
  | none => none
  | some (ext, g₂) =>
    let sg := if shuffle then pyShuffle ext g₂ else (ext, g₂)
    some ((pySlice total_slots sg.1).map Prod.fst, sg.2)

/-- A concrete random source used to instantiate theorems: the all-zeros
stream at cursor 0. -/
def rng0 : Rng := ⟨fun _ => 0, 0⟩

/-- The four node kinds of the emitted filter graph. -/
inductive NodeKind
  | cropScale
  | colorFill
  | hstack
  | vstack
deriving DecidableEq, Repr

/-- The deterministic node labels used in the `filter_complex` string:
`[vI]`, `[blackI]`, `[rowR]`, `[final]`. -/
inductive NodeId
  | v : ℕ → NodeId
  | black : ℕ → NodeId
  | row : ℕ → NodeId
  | final
deriving DecidableEq, Repr

/-- One emitted filter node: its output label, kind, and the labels of the
already-emitted nodes it consumes (source streams `[i:v]` are external
inputs, not nodes, so a `CropScale` node has no graph-internal inputs). -/
structure GNode where
  nid : NodeId
  kind : NodeKind
  inputs : List NodeId
deriving DecidableEq, Repr

/-- The label used for grid cell `idx` when `n` real clips are available:
`[vIdx]` for a clip cell, `[blackIdx]` for a synthetic filler cell. -/
def cellId (n idx : ℕ) : NodeId := if idx < n then .v idx else .black idx

/-- Lines 209-212: one `crop,scale` chain per selected clip. -/
def cropNodes (n : ℕ) : List GNode :=
  (List.range n).map (fun i => ⟨.v i, .cropScale, []⟩)

/-- Line 223: the black `color` fillers emitted inside row `r`, one per
cell index at or beyond the clip count. -/
def blackNodes (n cols r : ℕ) : List GNode :=
  (List.range cols).filterMap (fun c =>
    if r * cols + c < n then none
    else some ⟨.black (r * cols + c), .colorFill, []⟩)

/-- The cell labels of row `r` in column order (line 219-224). -/
def rowCells (n cols r : ℕ) : List NodeId :=
  (List.range cols).map (fun c => cellId n (r * cols + c))

/-- Lines 216-232, one row: filler nodes first, then an `hstack` node when
the row has more than one cell. -/
def rowSeg (n cols r : ℕ) : List GNode :=
  blackNodes n cols r ++
    (if 1 < cols then [⟨.row r, .hstack, rowCells n cols r⟩] else [])

/-- Lines 227-232: the label each row contributes to the vertical stack —
the `hstack` output, or the single cell itself when `cols = 1`. -/
def rowNodeId (n cols r : ℕ) : NodeId :=
  if 1 < cols then .row r else cellId n (r * cols)

/-- Lines 235-240: the final `vstack` node, emitted only when there is
more than one row. -/
def finalSeg (n rows cols : ℕ) : List GNode :=
  if 1 < rows then
    [⟨.final, .vstack, (List.range rows).map (rowNodeId n cols)⟩]
  else []

/-- The full node sequence of the `filter_complex` graph, in emission
order: all cell crop nodes, then each row segment, then the final stack. -/
def gridFilterNodes (n rows cols : ℕ) : List GNode :=
  cropNodes n ++ (List.range rows).flatMap (rowSeg n cols) ++
    finalSeg n rows cols

/-- Lines 238-240: the label mapped to the output. -/
def gridOutputId (n rows cols : ℕ) : NodeId :=
  if 1 < rows then .final else rowNodeId n cols 0

/-- The graph-construction part of `create_video_grid_v2_advanced`
(lines 205-240 of `video_grid_generator_v2_advanced.py`; identical in
`create_video_grid`, lines 132-170 of `video_grid_generator.py`), for `n`
selected clips on a `rows x cols` grid. `none` models the `IndexError` of
`row_videos[0]` / `rows_inputs[0]` when a zero `cols` or `rows` leaves
those lists empty. -/
def buildFilterGraph (n rows cols : ℕ) : Option (List GNode × NodeId) :=
  if 1 ≤ rows ∧ 1 ≤ cols then
    some (gridFilterNodes n rows cols, gridOutputId n rows cols)
  else none

/-- Sequential well-formedness: every input label of every node was
emitted as the label of an earlier node. -/
def topoOk (seen : List NodeId) : List GNode → Bool
  | [] => true
  | nd :: rest =>
    (nd.inputs.all (fun i => decide (i ∈ seen))) && topoOk (nd.nid :: seen) rest

/-- Lines 166-169 of `video_grid_generator_v2_advanced.py` (identical at
lines 95-98 of `video_grid_generator_advanced.py`): unpack the override
and derive the cell size by integer division; `none` models the
`ZeroDivisionError` when a dimension of the override is zero. -/
def applyGridOverride (tw th rows cols : ℤ) : Option GridLayout :=
  match pyFloorDiv tw cols, pyFloorDiv th rows with
  | some cw, some ch => some ⟨rows, cols, cw, ch⟩
  | _, _ => none

/-- Lines 166-171: the layout used by the driver — the override verbatim
when one is supplied (`if grid_layout:`), otherwise the search result
(whose `None` would fail tuple unpacking, also modeled as `none`). -/
def resolveLayout (tw th : ℤ) (grid_layout : Option (ℤ × ℤ)) (num : ℤ) :
    Option GridLayout :=
  match grid_layout with
  | some rc => applyGridOverride tw th rc.1 rc.2
  | none =>
    match calculate_optimal_grid num tw th with
    | some (some L) => some L
    | _ => none

theorem fdiv_two_nonneg_eq_ediv (a : ℤ) : Int.fdiv a 2 = a / 2 :=
  Int.fdiv_eq_ediv a (by norm_num)

/-- C4: `resolveCrop` geometry: size is the short side, the three anchors
place the offsets as specified, any unrecognized anchor behaves as
`center`, and the 1920x1080 `center` example gives size 1080, offsets
(420, 0). -/
theorem crop_geometry_c4 (w h : ℤ) (hw : 0 < w) (hh : 0 < h) :
    (∀ mode, (get_video_crop_params w h mode).square_size = min w h) ∧
    (get_video_crop_params w h "center" =
      ⟨w, h, min w h, (w - min w h) / 2, (h - min w h) / 2⟩) ∧
    ((get_video_crop_params w h "top").crop_x = (w - min w h) / 2 ∧
      (get_video_crop_params w h "top").crop_y = 0) ∧
    ((get_video_crop_params w h "bottom").crop_x = (w - min w h) / 2 ∧
      (get_video_crop_params w h "bottom").crop_y = h - min w h) ∧
    (∀ mode, mode ≠ "center" → mode ≠ "top" → mode ≠ "bottom" →
      get_video_crop_params w h mode = get_video_crop_params w h "center") ∧
    get_video_crop_params 1920 1080 "center" = ⟨1920, 1080, 1080, 420, 0⟩ := by
  refine ⟨?_, ?_, ?_, ?_, ?_, by decide⟩
  · intro mode
    by_cases h1 : mode = "center" <;> by_cases h2 : mode = "top" <;>
      by_cases h3 : mode = "bottom" <;>
      simp [get_video_crop_params, h1, h2, h3]
  · simp [get_video_crop_params, fdiv_two_nonneg_eq_ediv]
  · simp [get_video_crop_params, fdiv_two_nonneg_eq_ediv]
  · simp [get_video_crop_params, fdiv_two_nonneg_eq_ediv]
  · intro mode h1 h2 h3
    simp [get_video_crop_params, h1, h2, h3]

theorem crop_geometry_c4_witness :
    (∀ mode, (get_video_crop_params 1920 1080 mode).square_size = min 1920 1080) ∧
    (get_video_crop_params 1920 1080 "center" =
      ⟨1920, 1080, min 1920 1080, (1920 - min 1920 1080) / 2, (1080 - min 1920 1080) / 2⟩) ∧
    ((get_video_crop_params 1920 1080 "top").crop_x = (1920 - min 1920 1080) / 2 ∧
      (get_video_crop_params 1920 1080 "top").crop_y = 0) ∧
    ((get_video_crop_params 1920 1080 "bottom").crop_x = (1920 - min 1920 1080) / 2 ∧
      (get_video_crop_params 1920 1080 "bottom").crop_y = 1080 - min 1920 1080) ∧
    (∀ mode, mode ≠ "center" → mode ≠ "top" → mode ≠ "bottom" →
      get_video_crop_params 1920 1080 mode = get_video_crop_params 1920 1080 "center") ∧
    get_video_crop_params 1920 1080 "center" = ⟨1920, 1080, 1080, 420, 0⟩ :=
  crop_geometry_c4 1920 1080 (by norm_num) (by norm_num)

/-- C6: for positive source dimensions and any anchor string, the crop
window satisfies the CropWindow invariant: positive size, non-negative
offsets, and the window stays inside the source frame. -/
theorem crop_invariant_c6 (w h : ℤ) (mode : String) (hw : 0 < w) (hh : 0 < h) :
    0 < (get_video_crop_params w h mode).square_size ∧
    0 ≤ (get_video_crop_params w h mode).crop_x ∧
    0 ≤ (get_video_crop_params w h mode).crop_y ∧
    (get_video_crop_params w h mode).crop_x +
      (get_video_crop_params w h mode).square_size ≤ w ∧
    (get_video_crop_params w h mode).crop_y +
      (get_video_crop_params w h mode).square_size ≤ h := by
  have hmw : min w h ≤ w := min_le_left w h
  have hmh : min w h ≤ h := min_le_right w h
  have hm0 : 0 < min w h := lt_min hw hh
  by_cases h1 : mode = "center" <;> by_cases h2 : mode = "top" <;>
    by_cases h3 : mode = "bottom" <;>
    simp [get_video_crop_params, h1, h2, h3, fdiv_two_nonneg_eq_ediv] <;>
    omega

theorem crop_invariant_c6_witness :
    0 < (get_video_crop_params 1280 720 "unknown-anchor").square_size ∧
    0 ≤ (get_video_crop_params 1280 720 "unknown-anchor").crop_x ∧
    0 ≤ (get_video_crop_params 1280 720 "unknown-anchor").crop_y ∧
    (get_video_crop_params 1280 720 "unknown-anchor").crop_x +
      (get_video_crop_params 1280 720 "unknown-anchor").square_size ≤ 1280 ∧
    (get_video_crop_params 1280 720 "unknown-anchor").crop_y +
      (get_video_crop_params 1280 720 "unknown-anchor").square_size ≤ 720 :=
  crop_invariant_c6 1280 720 "unknown-anchor" (by norm_num) (by norm_num)

theorem gridCols_pos (num rows : ℤ) (hn : 1 ≤ num) (hr : 1 ≤ rows) :
    1 ≤ gridCols num rows := by
  have h0 : (0 : ℚ) < (num : ℚ) / (rows : ℚ) := by
    apply div_pos <;> exact_mod_cast by omega
  exact Int.ceil_pos.mpr h0

theorem gridCols_covers (num rows : ℤ) (hn : 1 ≤ num) (hr : 1 ≤ rows) :
    num ≤ rows * gridCols num rows := by
  have hrQ : (0 : ℚ) < (rows : ℚ) := by exact_mod_cast by omega
  have h1 : (num : ℚ) / (rows : ℚ) ≤ ((gridCols num rows : ℤ) : ℚ) :=
    Int.le_ceil _
  have h2 : (num : ℚ) ≤ (rows : ℚ) * ((gridCols num rows : ℤ) : ℚ) := by
    rw [mul_comm]
    exact (div_le_iff hrQ).mp h1
  exact_mod_cast h2

theorem gridStep_eq_pure (num tw th : ℤ) (st : Option ℚ × Option GridLayout)
    (rows : ℤ) (hn : 1 ≤ num) (hr : 1 ≤ rows) :
    gridStep num tw th st rows = some (pureGridStep num tw th st rows) := by
  have hc : 1 ≤ gridCols num rows := gridCols_pos num rows hn hr
  have hcov : num ≤ rows * gridCols num rows := gridCols_covers num rows hn hr
  unfold gridStep pureGridStep pyFloorDiv
  rw [if_pos hcov, if_neg (by omega : ¬gridCols num rows = 0),
    if_neg (by omega : ¬rows = 0)]
  simp only [gridRatioDiff, gridLayoutAt]
  split <;> rfl

theorem gridFold_eq_pure (num tw th : ℤ) (hn : 1 ≤ num) (L : List ℕ)
    (hL : ∀ r ∈ L, 1 ≤ r) (st : Option ℚ × Option GridLayout) :
    L.foldlM (fun (st : Option ℚ × Option GridLayout) (r : ℕ) => gridStep num tw th st (r : ℤ)) st =
      some (L.foldl (fun (st : Option ℚ × Option GridLayout) (r : ℕ) => pureGridStep num tw th st (r : ℤ)) st) := by
  induction L generalizing st with
  | nil => rfl
  | cons a L ih =>
    have ha : (1 : ℤ) ≤ (a : ℤ) := by
      have := hL a (by simp)
      exact_mod_cast this
    rw [List.foldlM_cons, gridStep_eq_pure num tw th st (a : ℤ) hn ha]
    rw [List.foldl_cons]
    exact ih (fun r hr => hL r (by simp [hr])) _

theorem pureGridFold_spec (num tw th : ℤ) (n : ℕ) (hn : 1 ≤ n) :
    ∃ r : ℕ, 1 ≤ r ∧ r ≤ n ∧
      (List.range' 1 n).foldl
          (fun (st : Option ℚ × Option GridLayout) (x : ℕ) =>
            pureGridStep num tw th st (x : ℤ)) (none, none) =
        (some (gridRatioDiff num tw th (r : ℤ)),
          some (gridLayoutAt num tw th (r : ℤ))) ∧
      (∀ r' : ℕ, 1 ≤ r' → r' ≤ n →
        gridRatioDiff num tw th (r : ℤ) ≤ gridRatioDiff num tw th (r' : ℤ)) ∧
      (∀ r' : ℕ, 1 ≤ r' → r' < r →
        gridRatioDiff num tw th (r : ℤ) < gridRatioDiff num tw th (r' : ℤ)) := by
  induction n with
  | zero => omega
  | succ n ih =>
    by_cases hn0 : n = 0
    · subst hn0
      refine ⟨1, le_refl 1, le_refl 1, ?_, ?_, ?_⟩
      · show pureGridStep num tw th (none, none) ((1 : ℕ) : ℤ) = _
        simp [pureGridStep, ltInf]
      · intro r' h1 h2
        have : r' = 1 := by omega
        subst this
        exact le_refl _
      · intro r' h1 h2
        omega
    · obtain ⟨r, hr1, hr2, heq, hmin, hstrict⟩ := ih (by omega)
      rw [List.range'_1_concat, List.foldl_append, heq]
      by_cases hlt : gridRatioDiff num tw th ((1 + n : ℕ) : ℤ) <
          gridRatioDiff num tw th (r : ℤ)
      · refine ⟨1 + n, by omega, by omega, ?_, ?_, ?_⟩
        · simp only [List.foldl_cons, List.foldl_nil, pureGridStep, ltInf]
          rw [if_pos]
          simp only [decide_eq_true_eq]
          exact hlt
        · intro r' h1 h2
          rcases Nat.lt_or_ge r' (1 + n) with hcase | hcase
          · have : r' ≤ n := by omega
            exact le_of_lt (lt_of_lt_of_le hlt (hmin r' h1 this))
          · have : r' = 1 + n := by omega
            subst this
            exact le_refl _
        · intro r' h1 h2
          have : r' ≤ n := by omega
          exact lt_of_lt_of_le hlt (hmin r' h1 this)
      · refine ⟨r, hr1, by omega, ?_, ?_, ?_⟩
        · simp only [List.foldl_cons, List.foldl_nil, pureGridStep, ltInf]
          rw [if_neg]
          simp only [decide_eq_true_eq]
          exact hlt
        · intro r' h1 h2
          rcases Nat.lt_or_ge r' (1 + n) with hcase | hcase
          · exact hmin r' h1 (by omega)
          · have : r' = 1 + n := by omega
            subst this
            exact le_of_not_lt hlt
        · intro r' h1 h2
          exact hstrict r' h1 h2

/-- C1: for `slotCountMin ≥ 1` and a positive canvas, the layout search
returns the candidate `(rows, ceil(slotCountMin/rows))` whose aspect-ratio
difference to the canvas is minimal over the search range `rows = 1..19`,
with ties resolved to the smallest `rows` (strictly smaller difference than
every earlier candidate), and the result covers the slots with
`rows, cols ≥ 1`. -/
theorem layout_search_c1 (num tw th : ℤ) (h1 : 1 ≤ num) (h2 : 1 ≤ tw)
    (h3 : 1 ≤ th) :
    ∃ r : ℤ, 1 ≤ r ∧ r ≤ 19 ∧
      calculate_optimal_grid num tw th = some (some (gridLayoutAt num tw th r)) ∧
      (gridLayoutAt num tw th r).rows = r ∧
      (gridLayoutAt num tw th r).cols = gridCols num r ∧
      (∀ r' : ℤ, 1 ≤ r' → r' ≤ 19 →
        gridRatioDiff num tw th r ≤ gridRatioDiff num tw th r') ∧
      (∀ r' : ℤ, 1 ≤ r' → r' < r →
        gridRatioDiff num tw th r < gridRatioDiff num tw th r') ∧
      num ≤ (gridLayoutAt num tw th r).rows * (gridLayoutAt num tw th r).cols ∧
      1 ≤ (gridLayoutAt num tw th r).rows ∧
      1 ≤ (gridLayoutAt num tw th r).cols := by
  obtain ⟨r, hr1, hr2, heq, hmin, hstrict⟩ :=
    pureGridFold_spec num tw th 19 (by norm_num)
  have hr1' : (1 : ℤ) ≤ (r : ℤ) := by exact_mod_cast hr1
  refine ⟨(r : ℤ), hr1', by exact_mod_cast hr2, ?_, rfl, rfl, ?_, ?_, ?_, ?_, ?_⟩
  · unfold calculate_optimal_grid
    rw [if_neg (by omega : ¬th = 0)]
    rw [gridFold_eq_pure num tw th h1 (List.range' 1 19) ?mem _]
    · rw [heq]
      rfl
    case mem =>
      intro x hx
      obtain ⟨i, hi, rfl⟩ := List.mem_range'.mp hx
      omega
  · intro r' ha hb
    have hx : r' = ((r'.toNat : ℕ) : ℤ) := by omega
    rw [hx]
    exact hmin r'.toNat (by omega) (by omega)
  · intro r' ha hb
    have hx : r' = ((r'.toNat : ℕ) : ℤ) := by omega
    rw [hx]
    refine hstrict r'.toNat (by omega) ?_
    omega
  · exact gridCols_covers num (r : ℤ) h1 hr1'
  · exact hr1'
  · exact gridCols_pos num (r : ℤ) h1 hr1'

theorem layout_search_c1_witness :
    ∃ r : ℤ, 1 ≤ r ∧ r ≤ 19 ∧
      calculate_optimal_grid 80 1920 1080 = some (some (gridLayoutAt 80 1920 1080 r)) ∧
      (gridLayoutAt 80 1920 1080 r).rows = r ∧
      (gridLayoutAt 80 1920 1080 r).cols = gridCols 80 r ∧
      (∀ r' : ℤ, 1 ≤ r' → r' ≤ 19 →
        gridRatioDiff 80 1920 1080 r ≤ gridRatioDiff 80 1920 1080 r') ∧
      (∀ r' : ℤ, 1 ≤ r' → r' < r →
        gridRatioDiff 80 1920 1080 r < gridRatioDiff 80 1920 1080 r') ∧
      80 ≤ (gridLayoutAt 80 1920 1080 r).rows * (gridLayoutAt 80 1920 1080 r).cols ∧
      1 ≤ (gridLayoutAt 80 1920 1080 r).rows ∧
      1 ≤ (gridLayoutAt 80 1920 1080 r).cols :=
  layout_search_c1 80 1920 1080 (by norm_num) (by norm_num) (by norm_num)

theorem cons_set_perm {α : Type} (t : List α) (m : ℕ) (x b : α)
    (hb : t[m]? = some b) : (x :: t).Perm (b :: t.set m x) := by
  induction t generalizing m with
  | nil => simp at hb
  | cons c t ih =>
    cases m with
    | zero =>
      simp only [List.getElem?_cons_zero, Option.some.injEq] at hb
      rw [← hb]
      simpa using List.Perm.swap c x t
    | succ m =>
      simp only [List.getElem?_cons_succ] at hb
      have h := ih m hb
      simp only [List.set_cons_succ]
      exact (List.Perm.swap c x t).trans
        ((h.cons c).trans (List.Perm.swap b c (t.set m x)))

theorem set_set_swap_perm {α : Type} :
    ∀ (l : List α) (i j : ℕ) (a b : α), l[i]? = some a → l[j]? = some b →
      ((l.set i b).set j a).Perm l := by
  intro l
  induction l with
  | nil => intro i j a b hi hj; simp at hi
  | cons c t ih =>
    intro i j a b hi hj
    cases i with
    | zero =>
      simp only [List.getElem?_cons_zero, Option.some.injEq] at hi
      rw [← hi]
      cases j with
      | zero => simp
      | succ m =>
        simp only [List.getElem?_cons_succ] at hj
        simp only [List.set_cons_zero, List.set_cons_succ]
        exact (cons_set_perm t m c b hj).symm
    | succ n =>
      simp only [List.getElem?_cons_succ] at hi
      cases j with
      | zero =>
        simp only [List.getElem?_cons_zero, Option.some.injEq] at hj
        rw [← hj]
        simp only [List.set_cons_succ, List.set_cons_zero]
        exact (cons_set_perm t n c a hi).symm
      | succ m =>
        simp only [List.getElem?_cons_succ] at hj
        simp only [List.set_cons_succ]
        exact (ih n m a b hi hj).cons c

theorem listSwap_perm {α : Type} (l : List α) (i j : ℕ) :
    (listSwap l i j).Perm l := by
  unfold listSwap
  split
  · next a b hi hj => exact set_set_swap_perm l i j a b hi hj
  · exact List.Perm.refl l

theorem fyStep_perm {α : Type} (i : ℕ) :
    ∀ (l : List α) (g : Rng), ((fyStep i (l, g)).1).Perm l := by
  induction i with
  | zero => intro l g; exact List.Perm.refl l
  | succ i ih =>
    intro l g
    show ((fyStep i (listSwap l (i + 1) _, _)).1).Perm l
    exact (ih _ _).trans (listSwap_perm l (i + 1) _)

theorem pyShuffle_perm {α : Type} (l : List α) (g : Rng) :
    ((pyShuffle l g).1).Perm l :=
  fyStep_perm (l.length - 1) l g

theorem pyChoices_spec {α : Type} (pop : List α) (hpop : pop ≠ []) :
    ∀ (k : ℕ) (g : Rng), ∃ l g', pyChoices pop k g = some (l, g') ∧
      l.length = k ∧ ∀ x ∈ l, x ∈ pop := by
  intro k
  induction k with
  | zero => intro g; exact ⟨[], g, rfl, rfl, by simp⟩
  | succ k ih =>
    intro g
    have hp : 0 < pop.length := List.length_pos.mpr hpop
    obtain ⟨l, g', heq, hlen, hmem⟩ := ih (rngNext g pop.length).2
    refine ⟨pop.get ⟨(rngNext g pop.length).1, Nat.mod_lt _ hp⟩ :: l, g',
      ?_, by simp [hlen], ?_⟩
    · show pyChoices pop (k + 1) g = _
      unfold pyChoices
      rw [dif_pos hp, heq]
    · intro x hx
      rcases List.mem_cons.mp hx with h | h
      · rw [h]; exact List.get_mem _ _ _
      · exact hmem x h

theorem nodup_length_le_of_subset {α : Type} [DecidableEq α] (l s : List α)
    (hn : l.Nodup) (hsub : ∀ x ∈ l, x ∈ s) : l.length ≤ s.length := by
  have h1 : l.toFinset.card = l.length := List.toFinset_card_of_nodup hn
  have h2 : l.toFinset ⊆ s.toFinset := by
    intro x hx
    rw [List.mem_toFinset] at hx ⊢
    exact hsub x hx
  have h3 := Finset.card_le_card h2
  have h4 : s.toFinset.card ≤ s.length := s.toFinset_card_le
  omega

theorem fillToSlots_spec (avail : List ClipEntry) (s : ℤ) (g : Rng)
    (h : avail ≠ []) :
    ∃ extra g₂, fillToSlots avail s g = some (avail ++ extra, g₂) ∧
      (∀ e ∈ extra, e ∈ avail) ∧
      (s ≤ (avail.length : ℤ) → extra = [] ∧ g₂ = g) ∧
      ((avail.length : ℤ) < s → (extra.length : ℤ) = s - (avail.length : ℤ)) := by
  by_cases hc : (avail.length : ℤ) < s
  · obtain ⟨l, g', heq, hlen, hmem⟩ :=
      pyChoices_spec avail h (s - (avail.length : ℤ)).toNat g
    refine ⟨l, g', ?_, hmem, ?_, ?_⟩
    · unfold fillToSlots
      rw [if_pos hc, heq]
    · intro hs; omega
    · intro _; rw [hlen]; omega
  · refine ⟨[], g, ?_, by simp, fun _ => ⟨rfl, rfl⟩, fun hs => absurd hs hc⟩
    unfold fillToSlots
    rw [if_neg hc]
    simp

/-- C2 (amended): for `slotCount ≥ 1` and a non-empty (capped) clip pool,
the sampler runs the pipeline flatten -> cap -> fill-with-replacement ->
optional shuffle -> truncate, producing a plan of length exactly
`rows*cols`; the cap keeps the first `maxClips` flattened entries before
any randomization; the filler draws only elements of the capped pool and
only to cover a shortfall; and the plan repeats a path exactly when the
supply is short (conversely a duplicate-free supply that covers the slots
yields a duplicate-free plan). -/
theorem sampler_pipeline_c2 (groups : List (String × List String))
    (rows cols : ℤ) (max_videos : Option ℤ) (shuffle : Bool) (g : Rng)
    (hslots : 1 ≤ rows * cols) (hT : truncatedClips groups max_videos ≠ []) :
    ∃ plan g' extra shuffled,
      create_balanced_video_list groups rows cols max_videos shuffle g =
        some (plan, g') ∧
      plan.length = (rows * cols).toNat ∧
      (∀ e ∈ extra, e ∈ truncatedClips groups max_videos) ∧
      (rows * cols ≤ ((truncatedClips groups max_videos).length : ℤ) →
        extra = []) ∧
      (((truncatedClips groups max_videos).length : ℤ) < rows * cols →
        (extra.length : ℤ) =
          rows * cols - ((truncatedClips groups max_videos).length : ℤ)) ∧
      shuffled.Perm (truncatedClips groups max_videos ++ extra) ∧
      (shuffle = false → shuffled = truncatedClips groups max_videos ++ extra) ∧
      plan = (shuffled.take (rows * cols).toNat).map Prod.fst ∧
      (∀ mv : ℤ, 0 < mv → mv < ((flattenGroups groups).length : ℤ) →
        truncatedClips groups (some mv) = (flattenGroups groups).take mv.toNat) ∧
      (((truncatedClips groups max_videos).length : ℤ) < rows * cols →
        ¬ plan.Nodup) ∧
      (rows * cols ≤ ((truncatedClips groups max_videos).length : ℤ) →
        ((truncatedClips groups max_videos).map Prod.fst).Nodup →
        plan.Nodup) := by
  have hmv : ∀ mv : ℤ, 0 < mv → mv < ((flattenGroups groups).length : ℤ) →
      truncatedClips groups (some mv) = (flattenGroups groups).take mv.toNat := by
    intro mv h1 h2
    show (if mv ≠ 0 ∧ mv < ((flattenGroups groups).length : ℤ)
        then pySlice mv (flattenGroups groups)
        else flattenGroups groups) = (flattenGroups groups).take mv.toNat
    rw [if_pos ⟨by omega, h2⟩]
    unfold pySlice
    rw [if_pos (le_of_lt h1)]
  obtain ⟨extra, g₂, hfill, hmem, hge, hlt⟩ :=
    fillToSlots_spec (truncatedClips groups max_videos) (rows * cols) g hT
  set sh := if shuffle then
      pyShuffle (truncatedClips groups max_videos ++ extra) g₂
    else (truncatedClips groups max_videos ++ extra, g₂) with hsh
  have hperm : sh.1.Perm (truncatedClips groups max_videos ++ extra) := by
    rw [hsh]
    by_cases hs : shuffle
    · rw [if_pos hs]
      exact pyShuffle_perm _ _
    · rw [if_neg hs]
  have hslice : pySlice (rows * cols) sh.1 = sh.1.take (rows * cols).toNat := by
    unfold pySlice
    rw [if_pos (by omega)]
  have hrun : create_balanced_video_list groups rows cols max_videos shuffle g =
      some ((sh.1.take (rows * cols).toNat).map Prod.fst, sh.2) := by
    unfold create_balanced_video_list
    simp only [hfill]
    rw [← hsh, hslice]
  have hshlen : sh.1.length =
      (truncatedClips groups max_videos).length + extra.length := by
    rw [hperm.length_eq, List.length_append]
  have hcover : (rows * cols).toNat ≤ sh.1.length := by
    rcases le_or_lt (rows * cols) ((truncatedClips groups max_videos).length : ℤ)
      with hcase | hcase
    · omega
    · have := hlt hcase
      omega
  have hplanlen : ((sh.1.take (rows * cols).toNat).map Prod.fst).length =
      (rows * cols).toNat := by
    rw [List.length_map, List.length_take]
    omega
  refine ⟨_, _, extra, sh.1, hrun, hplanlen, hmem, ?_, hlt, hperm, ?_, rfl,
    hmv, ?_, ?_⟩
  · intro hcase
    exact (hge hcase).1
  · intro hcase
    rw [hsh, if_neg (by simp [hcase])]
  · intro hcase hnodup
    have hsub : ∀ x ∈ (sh.1.take (rows * cols).toNat).map Prod.fst,
        x ∈ (truncatedClips groups max_videos).map Prod.fst := by
      intro x hx
      obtain ⟨p, hp, rfl⟩ := List.mem_map.mp hx
      have hp2 : p ∈ sh.1 := (List.take_sublist _ _).subset hp
      have hp3 : p ∈ truncatedClips groups max_videos ++ extra :=
        hperm.mem_iff.mp hp2
      rcases List.mem_append.mp hp3 with h | h
      · exact List.mem_map_of_mem _ h
      · exact List.mem_map_of_mem _ (hmem p h)
    have hle := nodup_length_le_of_subset _ _ hnodup hsub
    rw [hplanlen, List.length_map] at hle
    omega
  · intro hcase hnd
    have hx : extra = [] := (hge hcase).1
    have hperm' : (sh.1.map Prod.fst).Perm
        ((truncatedClips groups max_videos).map Prod.fst) := by
      have := hperm.map Prod.fst
      rwa [hx, List.append_nil] at this
    have hnd' : (sh.1.map Prod.fst).Nodup := hperm'.nodup_iff.mpr hnd
    rw [List.map_take]
    exact List.Nodup.sublist (List.take_sublist _ _) hnd'

theorem pyChoices_nil {α : Type} (k : ℕ) (hk : 1 ≤ k) (g : Rng) :
    pyChoices ([] : List α) k g = none := by
  cases k with
  | zero => omega
  | succ k =>
    unfold pyChoices
    rw [dif_neg (by simp)]

theorem sampler_pipeline_c2_witness :
    ∃ plan g' extra shuffled,
      create_balanced_video_list [("a", ["x"])] 1 2 none false rng0 =
        some (plan, g') ∧
      plan.length = ((1 : ℤ) * 2).toNat ∧
      (∀ e ∈ extra, e ∈ truncatedClips [("a", ["x"])] none) ∧
      ((1 : ℤ) * 2 ≤ ((truncatedClips [("a", ["x"])] none).length : ℤ) →
        extra = []) ∧
      (((truncatedClips [("a", ["x"])] none).length : ℤ) < (1 : ℤ) * 2 →
        (extra.length : ℤ) =
          (1 : ℤ) * 2 - ((truncatedClips [("a", ["x"])] none).length : ℤ)) ∧
      shuffled.Perm (truncatedClips [("a", ["x"])] none ++ extra) ∧
      (false = false → shuffled = truncatedClips [("a", ["x"])] none ++ extra) ∧
      plan = (shuffled.take ((1 : ℤ) * 2).toNat).map Prod.fst ∧
      (∀ mv : ℤ, 0 < mv → mv < ((flattenGroups [("a", ["x"])]).length : ℤ) →
        truncatedClips [("a", ["x"])] (some mv) =
          (flattenGroups [("a", ["x"])]).take mv.toNat) ∧
      (((truncatedClips [("a", ["x"])] none).length : ℤ) < (1 : ℤ) * 2 →
        ¬ plan.Nodup) ∧
      ((1 : ℤ) * 2 ≤ ((truncatedClips [("a", ["x"])] none).length : ℤ) →
        ((truncatedClips [("a", ["x"])] none).map Prod.fst).Nodup →
        plan.Nodup) :=
  sampler_pipeline_c2 [("a", ["x"])] 1 2 none false rng0 (by norm_num)
    (by decide)

/-- C2 counterexample: the claim quantifies over every non-empty groups
mapping, but a mapping whose only group has no clips makes
`random.choices` raise `IndexError` (modeled as `none`): no plan of length
`slotCount` is returned. -/
theorem sampler_pipeline_c2_counterexample :
    create_balanced_video_list [("a", [])] 1 1 none true rng0 = none := rfl

/-- C3 counterexample: `create_balanced_video_list` takes no seed (or any
random-source) parameter — its only inputs are the groups, the grid size,
the cap and the shuffle flag. Two invocations with those inputs identical
can still return different plans, because the draws come from the ambient
process-wide `random` state (the embedding's extra `Rng` argument): with
stream `0` the two-clip shuffle swaps, with stream `1` it does not. So no
seed accepted by the sampler determines its output, refuting the claim as
stated. -/
theorem sampler_determinism_c3_counterexample :
    Option.map Prod.fst (create_balanced_video_list [("a", ["x", "y"])] 1 2
        none true ⟨fun _ => 0, 0⟩) ≠
      Option.map Prod.fst (create_balanced_video_list [("a", ["x", "y"])] 1 2
        none true ⟨fun _ => 1, 0⟩) := by
  decide

/-- C3 (amended): the sampler accepts no seed parameter; its randomness is
the process-wide `random` module state, made explicit as the `Rng`
argument of the embedding. Reproducibility therefore comes only from
fixing that process-wide state (what `random.seed` does): two invocations
with identical inputs and equal global `Rng` states produce identical
SelectionPlan sequences, since the sampler consults no other
non-deterministic source. -/
theorem sampler_determinism_c3 (groups : List (String × List String))
    (rows cols : ℤ) (max_videos : Option ℤ) (shuffle : Bool) (g₁ g₂ : Rng)
    (h : g₁ = g₂) :
    create_balanced_video_list groups rows cols max_videos shuffle g₁ =
      create_balanced_video_list groups rows cols max_videos shuffle g₂ := by
  rw [h]

theorem sampler_determinism_c3_witness :
    create_balanced_video_list [("a", ["x", "y"])] 2 2 none true rng0 =
      create_balanced_video_list [("a", ["x", "y"])] 2 2 none true rng0 :=
  sampler_determinism_c3 [("a", ["x", "y"])] 2 2 none true rng0 rng0 rfl

/-- C10: with shuffling disabled and a (capped) pool covering the grid,
the sampler touches no randomness (the `Rng` state is returned untouched)
and the plan is exactly the first `rows*cols` flattened entries in group
iteration order. -/
theorem no_shuffle_prefix_c10 (groups : List (String × List String))
    (rows cols : ℤ) (max_videos : Option ℤ) (g : Rng)
    (h1 : 1 ≤ rows * cols)
    (h2 : rows * cols ≤ ((truncatedClips groups max_videos).length : ℤ)) :
    create_balanced_video_list groups rows cols max_videos false g =
      some (((truncatedClips groups max_videos).take
        (rows * cols).toNat).map Prod.fst, g) := by
  have hfill : fillToSlots (truncatedClips groups max_videos) (rows * cols) g =
      some (truncatedClips groups max_videos, g) := by
    unfold fillToSlots
    rw [if_neg (by omega)]
  unfold create_balanced_video_list
  simp only [hfill]
  show some (((pySlice (rows * cols)
    (truncatedClips groups max_videos)).map Prod.fst), g) = _
  unfold pySlice
  rw [if_pos (by omega)]

theorem no_shuffle_prefix_c10_witness :
    create_balanced_video_list [("a", ["x", "y"]), ("b", ["z"])] 1 2 none
        false rng0 =
      some ((((truncatedClips [("a", ["x", "y"]), ("b", ["z"])] none)).take
        ((1 : ℤ) * 2).toNat).map Prod.fst, rng0) :=
  no_shuffle_prefix_c10 [("a", ["x", "y"]), ("b", ["z"])] 1 2 none rng0
    (by norm_num) (by decide)

/-- C7 counterexample: `selectSlots` with `slotCount = 0` (a 0x0 grid)
does not fail at all — it returns an empty plan, contradicting the claimed
`InvalidInput` failure for `slotCount ≤ 0`. -/
theorem input_validation_c7_counterexample :
    create_balanced_video_list [("a", ["x"])] 0 0 none false rng0 =
      some ([], rng0) := rfl

/-- C7 (amended): the code performs no input validation. The layout search
fails only through uncaught exceptions: `slotCountMin = 0` dies on a
division by a zero column count, and canvas height `0` dies computing the
target ratio, while canvas width `0` succeeds. The sampler returns an
empty plan (no failure) for zero slots, and fails (uncaught `IndexError`)
for an empty groups mapping with slots to fill. A non-positive canvas
width is never rejected: the search returns a layout whenever
`slotCountMin ≥ 1` and the height is positive, whatever the width. -/
theorem input_validation_c7_amended :
    (∀ num tw th : ℤ, 1 ≤ num → 1 ≤ th → ∃ L : GridLayout,
      calculate_optimal_grid num tw th = some (some L)) ∧
    (∀ tw th : ℤ, calculate_optimal_grid 0 tw th = none) ∧
    (∀ num tw : ℤ, calculate_optimal_grid num tw 0 = none) ∧
    (∀ (groups : List (String × List String)) (max_videos : Option ℤ)
        (shuffle : Bool) (g : Rng), ∃ g',
      create_balanced_video_list groups 0 0 max_videos shuffle g =
        some ([], g')) ∧
    (∀ (rows cols : ℤ) (max_videos : Option ℤ) (shuffle : Bool) (g : Rng),
      1 ≤ rows * cols →
      create_balanced_video_list [] rows cols max_videos shuffle g = none) := by
  refine ⟨?_, ?_, ?_, ?_, ?_⟩
  · intro num tw th hn hth
    obtain ⟨r, hr1, hr2, heq, hmin, hstrict⟩ :=
      pureGridFold_spec num tw th 19 (by norm_num)
    refine ⟨gridLayoutAt num tw th (r : ℤ), ?_⟩
    unfold calculate_optimal_grid
    rw [if_neg (by omega : ¬th = 0)]
    rw [gridFold_eq_pure num tw th hn (List.range' 1 19) ?mem _]
    · rw [heq]
      rfl
    case mem =>
      intro x hx
      obtain ⟨i, hi, rfl⟩ := List.mem_range'.mp hx
      omega
  · intro tw th
    unfold calculate_optimal_grid
    by_cases h : th = 0
    · rw [if_pos h]
    · rw [if_neg h]
      have h19 : (List.range' 1 19) = 1 :: List.range' 2 18 := rfl
      rw [h19, List.foldlM_cons]
      have hcols : gridCols 0 (1 : ℤ) = 0 := by
        unfold gridCols
        norm_num
      have hstep : gridStep 0 tw th ((none : Option ℚ),
          (none : Option GridLayout)) (((1 : ℕ)) : ℤ) = none := by
        simp [gridStep, hcols, pyFloorDiv]
      rw [hstep]
      rfl
  · intro num tw
    unfold calculate_optimal_grid
    rw [if_pos rfl]
  · intro groups max_videos shuffle g
    have hfill : fillToSlots (truncatedClips groups max_videos) (0 * 0) g =
        some (truncatedClips groups max_videos, g) := by
      unfold fillToSlots
      rw [if_neg (by omega)]
    cases shuffle with
    | false =>
      refine ⟨g, ?_⟩
      unfold create_balanced_video_list
      simp only [hfill]
      show some (((pySlice (0 * 0)
        (truncatedClips groups max_videos)).map Prod.fst), g) = _
      unfold pySlice
      rw [if_pos (by omega)]
      simp
    | true =>
      refine ⟨(pyShuffle (truncatedClips groups max_videos) g).2, ?_⟩
      unfold create_balanced_video_list
      simp only [hfill]
      show some (((pySlice (0 * 0)
          (pyShuffle (truncatedClips groups max_videos) g).1).map Prod.fst),
        (pyShuffle (truncatedClips groups max_videos) g).2) = _
      unfold pySlice
      rw [if_pos (by omega)]
      simp
  · intro rows cols max_videos shuffle g h
    have hTe : truncatedClips [] max_videos = [] := by
      cases max_videos <;> simp [truncatedClips, flattenGroups, pySlice]
    have hlen0 : ((([] : List ClipEntry).length : ℤ)) < rows * cols := by
      simp only [List.length_nil, Nat.cast_zero]
      omega
    have hk : 1 ≤ (rows * cols - ((([] : List ClipEntry).length : ℤ))).toNat := by
      simp only [List.length_nil, Nat.cast_zero, sub_zero]
      omega
    have hfill : fillToSlots (truncatedClips [] max_videos) (rows * cols) g =
        none := by
      rw [hTe]
      unfold fillToSlots
      rw [if_pos hlen0, pyChoices_nil _ hk g]
    unfold create_balanced_video_list
    simp only [hfill]

theorem input_validation_c7_witness :
    create_balanced_video_list [] 2 3 none false rng0 = none :=
  input_validation_c7_amended.2.2.2.2 2 3 none false rng0 (by norm_num)

theorem topoOk_append (l₁ l₂ : List GNode) :
    ∀ seen, topoOk seen (l₁ ++ l₂) =
      (topoOk seen l₁ && topoOk (l₁.reverse.map GNode.nid ++ seen) l₂) := by
  induction l₁ with
  | nil => intro seen; simp [topoOk]
  | cons nd rest ih =>
    intro seen
    simp only [List.cons_append, topoOk, List.reverse_cons, List.map_append,
      List.append_assoc, List.map_cons, List.map_nil, List.singleton_append,
      List.append_eq, List.nil_append,
      ih (nd.nid :: seen), Bool.and_assoc]

theorem topoOk_of_no_inputs (l : List GNode) (h : ∀ nd ∈ l, nd.inputs = []) :
    ∀ seen, topoOk seen l = true := by
  induction l with
  | nil => intro _; rfl
  | cons nd rest ih =>
    intro seen
    simp only [topoOk, Bool.and_eq_true]
    constructor
    · rw [h nd (by simp)]
      rfl
    · exact ih (fun x hx => h x (by simp [hx])) _

theorem cropNodes_inputs (n : ℕ) : ∀ nd ∈ cropNodes n, nd.inputs = [] := by
  intro nd hnd
  obtain ⟨i, _, heq⟩ := List.mem_map.mp hnd
  rw [← heq]

theorem blackNodes_inputs (n cols r : ℕ) :
    ∀ nd ∈ blackNodes n cols r, nd.inputs = [] := by
  intro nd hnd
  obtain ⟨c, _, heq⟩ := List.mem_filterMap.mp hnd
  split at heq
  · exact absurd heq (by simp)
  · simp only [Option.some.injEq] at heq
    rw [← heq]

theorem black_mem (n cols r c : ℕ) (hc : c < cols) (hn : ¬ r * cols + c < n) :
    (⟨.black (r * cols + c), .colorFill, []⟩ : GNode) ∈ blackNodes n cols r :=
  List.mem_filterMap.mpr ⟨c, List.mem_range.mpr hc, by rw [if_neg hn]⟩

theorem v_mem_cropIds (n i : ℕ) (hi : i < n) :
    NodeId.v i ∈ (cropNodes n).map GNode.nid :=
  List.mem_map.mpr ⟨⟨.v i, .cropScale, []⟩,
    List.mem_map.mpr ⟨i, List.mem_range.mpr hi, rfl⟩, rfl⟩

theorem rowSeg_ok (n cols r : ℕ) (seen : List NodeId)
    (hv : ∀ i, i < n → NodeId.v i ∈ seen) :
    topoOk seen (rowSeg n cols r) = true := by
  unfold rowSeg
  rw [topoOk_append, Bool.and_eq_true]
  refine ⟨topoOk_of_no_inputs _ (blackNodes_inputs n cols r) seen, ?_⟩
  by_cases h : 1 < cols
  · rw [if_pos h]
    simp only [topoOk, Bool.and_true, List.all_eq_true, decide_eq_true_eq]
    intro id hid
    obtain ⟨c, hc, rfl⟩ := List.mem_map.mp hid
    have hc' : c < cols := List.mem_range.mp hc
    unfold cellId
    by_cases hlt : r * cols + c < n
    · rw [if_pos hlt]
      exact List.mem_append_right _ (hv _ hlt)
    · rw [if_neg hlt]
      apply List.mem_append_left
      rw [List.map_reverse, List.mem_reverse]
      exact List.mem_map.mpr ⟨_, black_mem n cols r c hc' hlt, rfl⟩
  · rw [if_neg h]
    rfl

theorem rows_ok (n cols : ℕ) (L : List ℕ) :
    ∀ seen, (∀ i, i < n → NodeId.v i ∈ seen) →
      topoOk seen (L.flatMap (rowSeg n cols)) = true := by
  induction L with
  | nil => intro _ _; rfl
  | cons r L ih =>
    intro seen hv
    rw [List.flatMap_cons, topoOk_append, Bool.and_eq_true]
    exact ⟨rowSeg_ok n cols r seen hv,
      ih _ (fun i hi => List.mem_append_right _ (hv i hi))⟩

theorem rowNodeId_mem (n rows cols r : ℕ) (hc : 1 ≤ cols) (hr : r < rows) :
    rowNodeId n cols r ∈
      (cropNodes n ++ (List.range rows).flatMap (rowSeg n cols)).map
        GNode.nid := by
  unfold rowNodeId
  by_cases h : 1 < cols
  · rw [if_pos h]
    have hnode : (⟨.row r, .hstack, rowCells n cols r⟩ : GNode) ∈
        cropNodes n ++ (List.range rows).flatMap (rowSeg n cols) := by
      apply List.mem_append_right
      refine List.mem_flatMap.mpr ⟨r, List.mem_range.mpr hr, ?_⟩
      unfold rowSeg
      rw [if_pos h]
      exact List.mem_append_right _ (by simp)
    exact List.mem_map.mpr ⟨_, hnode, rfl⟩
  · rw [if_neg h]
    have hcols1 : cols = 1 := by omega
    subst hcols1
    unfold cellId
    by_cases hn : r * 1 < n
    · rw [if_pos hn]
      exact List.mem_map.mpr ⟨⟨.v (r * 1), .cropScale, []⟩,
        List.mem_append_left _
          (List.mem_map.mpr ⟨r * 1, List.mem_range.mpr hn, rfl⟩), rfl⟩
    · rw [if_neg hn]
      have hb := black_mem n 1 r 0 (by omega) (by omega)
      have hnode : (⟨.black (r * 1), .colorFill, []⟩ : GNode) ∈
          (List.range rows).flatMap (rowSeg n 1) := by
        refine List.mem_flatMap.mpr ⟨r, List.mem_range.mpr hr, ?_⟩
        unfold rowSeg
        apply List.mem_append_left
        simpa using hb
      exact List.mem_map.mpr ⟨_, List.mem_append_right _ hnode, rfl⟩

theorem gridFilterNodes_ok (n rows cols : ℕ) (hc : 1 ≤ cols) :
    topoOk [] (gridFilterNodes n rows cols) = true := by
  unfold gridFilterNodes
  rw [topoOk_append, topoOk_append, Bool.and_eq_true, Bool.and_eq_true]
  refine ⟨⟨topoOk_of_no_inputs _ (cropNodes_inputs n) [], ?_⟩, ?_⟩
  · apply rows_ok
    intro i hi
    apply List.mem_append_left
    rw [List.map_reverse, List.mem_reverse]
    exact v_mem_cropIds n i hi
  · unfold finalSeg
    by_cases h : 1 < rows
    · rw [if_pos h]
      simp only [topoOk, Bool.and_true, List.all_eq_true, decide_eq_true_eq]
      intro id hid
      obtain ⟨r, hrmem, rfl⟩ := List.mem_map.mp hid
      apply List.mem_append_left
      rw [List.map_reverse, List.mem_reverse]
      exact rowNodeId_mem n rows cols r hc (List.mem_range.mp hrmem)
    · rw [if_neg h]
      rfl

theorem cropNodes_length (n : ℕ) : (cropNodes n).length = n := by
  simp [cropNodes]

theorem blackNodes_length (n cols r : ℕ) :
    (blackNodes n cols r).length = cols - min cols (n - r * cols) := by
  suffices h : ∀ (m base : ℕ), ((List.range m).filterMap (fun c =>
      if base + c < n then none
      else some (⟨.black (base + c), .colorFill, []⟩ : GNode))).length =
        m - min m (n - base) by
    have h2 := h cols (r * cols)
    unfold blackNodes
    simpa using h2
  intro m
  induction m with
  | zero => intro base; simp
  | succ m ih =>
    intro base
    rw [List.range_succ, List.filterMap_append, List.length_append, ih]
    by_cases h : base + m < n
    · simp [h]
      omega
    · simp [h]
      omega

theorem rowSeg_length (n cols r : ℕ) :
    (rowSeg n cols r).length =
      (cols - min cols (n - r * cols)) + (if 1 < cols then 1 else 0) := by
  unfold rowSeg
  rw [List.length_append, blackNodes_length]
  by_cases h : 1 < cols <;> simp [h]

theorem rows_length (n cols : ℕ) : ∀ rows : ℕ,
    ((List.range rows).flatMap (rowSeg n cols)).length =
      (rows * cols - min (rows * cols) n) +
        rows * (if 1 < cols then 1 else 0) := by
  intro rows
  induction rows with
  | zero => simp
  | succ rows ih =>
    rw [List.range_succ, List.flatMap_append, List.length_append, ih]
    simp only [List.flatMap_cons, List.flatMap_nil, List.append_nil,
      rowSeg_length]
    have h1 : (rows + 1) * cols = rows * cols + cols := by ring
    by_cases h : 1 < cols <;> simp only [h, if_true, if_false, reduceIte] <;>
      omega

theorem gridFilterNodes_length (n rows cols : ℕ) (hn : n ≤ rows * cols) :
    (gridFilterNodes n rows cols).length =
      rows * cols + (if 1 < cols then rows else 0) +
        (if 1 < rows then 1 else 0) := by
  unfold gridFilterNodes finalSeg
  rw [List.length_append, List.length_append, cropNodes_length, rows_length]
  by_cases h1 : 1 < cols <;> by_cases h2 : 1 < rows <;>
    simp only [h1, h2, if_true, if_false, reduceIte, List.length_singleton,
      List.length_nil] <;>
    omega

/-- C5: for a valid layout (`rows, cols ≥ 1`) and a selection of `n ≤
rows*cols` clips, the compiler emits the graph with no forward reference —
every input label names an earlier node — and the node count is `rows*cols`
cell nodes plus `rows` HStack nodes when `cols > 1` plus one VStack node
when `rows > 1`. -/
theorem compiler_wellformed_c5 (n rows cols : ℕ) (hr : 1 ≤ rows)
    (hc : 1 ≤ cols) (hn : n ≤ rows * cols) :
    ∃ g out, buildFilterGraph n rows cols = some (g, out) ∧
      topoOk [] g = true ∧
      g.length = rows * cols + (if 1 < cols then rows else 0) +
        (if 1 < rows then 1 else 0) := by
  refine ⟨gridFilterNodes n rows cols, gridOutputId n rows cols, ?_, ?_, ?_⟩
  · unfold buildFilterGraph
    rw [if_pos ⟨hr, hc⟩]
  · exact gridFilterNodes_ok n rows cols hc
  · exact gridFilterNodes_length n rows cols hn

theorem compiler_wellformed_c5_witness :
    ∃ g out, buildFilterGraph 3 2 2 = some (g, out) ∧
      topoOk [] g = true ∧
      g.length = 2 * 2 + (if 1 < 2 then 2 else 0) + (if 1 < 2 then 1 else 0) :=
  compiler_wellformed_c5 3 2 2 (by norm_num) (by norm_num) (by norm_num)

/-- C9: a 1x1 grid with one clip compiles to exactly the clip's CropScale
node, which is itself the output (no HStack or VStack emitted); in
general a single-column row contributes its sole cell node directly
(row segments hold only filler cells, never a stack node), a single-row
grid emits no final stack, and its output is the row-node itself. -/
theorem degenerate_stacks_c9 :
    buildFilterGraph 1 1 1 = some ([⟨.v 0, .cropScale, []⟩], .v 0) ∧
    (∀ nd ∈ gridFilterNodes 1 1 1,
      nd.kind ≠ NodeKind.hstack ∧ nd.kind ≠ NodeKind.vstack) ∧
    (∀ n r, rowNodeId n 1 r = cellId n r) ∧
    (∀ n r nd, nd ∈ rowSeg n 1 r → nd.kind = NodeKind.colorFill) ∧
    (∀ n cols, finalSeg n 1 cols = []) ∧
    (∀ n cols, gridOutputId n 1 cols = rowNodeId n cols 0) := by
  refine ⟨by decide, by decide, ?_, ?_, ?_, ?_⟩
  · intro n r
    unfold rowNodeId
    rw [if_neg (by omega), Nat.mul_one]
  · intro n r nd hnd
    unfold rowSeg at hnd
    rw [if_neg (by omega), List.append_nil] at hnd
    obtain ⟨c, _, heq⟩ := List.mem_filterMap.mp hnd
    split at heq
    · exact absurd heq (by simp)
    · simp only [Option.some.injEq] at heq
      rw [← heq]
  · intro n cols
    unfold finalSeg
    rw [if_neg (by omega)]
  · intro n cols
    unfold gridOutputId
    rw [if_neg (by omega)]

/-- C8 counterexample: the override `(rows, cols) = (1, 3000)` on a
1920x1080 canvas is accepted although the integer-divided cell width is
`0`, where the claim requires an `InvalidInput` failure (the zero clip
count also shows the search was skipped, as the search would fail on 0). -/
theorem layout_override_c8_counterexample :
    resolveLayout 1920 1080 (some (1, 3000)) 0 = some ⟨1, 3000, 0, 1080⟩ := by
  decide

/-- C8 (amended): a supplied override skips the search entirely (the
result ignores the clip count) and is accepted exactly when `rows ≠ 0` and
`cols ≠ 0` — the only failure is the division by zero; the resulting cell
sizes are not validated and may be zero (or negative for negative
overrides). -/
theorem layout_override_c8_amended (tw th r c num : ℤ) :
    resolveLayout tw th (some (r, c)) num =
      (if r = 0 ∨ c = 0 then none
       else some ⟨r, c, Int.fdiv tw c, Int.fdiv th r⟩) := by
  show applyGridOverride tw th r c = _
  unfold applyGridOverride pyFloorDiv
  by_cases hc : c = 0
  · rw [if_pos hc, if_pos (Or.inr hc)]
  · rw [if_neg hc]
    by_cases hr : r = 0
    · rw [if_pos hr, if_pos (Or.inl hr)]
    · rw [if_neg hr, if_neg (by tauto)]

theorem degenerate_stacks_c9_witness :
    (⟨NodeId.black 2, NodeKind.colorFill, []⟩ : GNode).kind =
      NodeKind.colorFill :=
  degenerate_stacks_c9.2.2.2.1 1 2 ⟨NodeId.black 2, NodeKind.colorFill, []⟩
    (by decide)
